import Mathlib

/-!
# site-status: the sitemap fetch-and-check pipeline of `main.go`

A shallow embedding of `SiteStore` and `Site` from `main.go`, with the
network and the XML decoder taken as inputs:

* `http.Get` is an input: the pair `(resp, err)` it hands back (`GetResult`).
* `encoding/xml`'s tokenizer is an input: a response body is given as what
  the decoder delivers while reading the first top-level element, together
  with whether what follows that element is allowed there (`Body`).
  The mapping of that element onto `siteMapVals` and `Site`, which the struct
  tags in `main.go` fix, is embedded (`xmlUnmarshal`).
* a nil-pointer dereference is the outcome `Outcome.panicked`.
* the goroutines of `fetchSitesStatuses` are run under an explicit schedule
  that decides which pending send each channel receive gets.

The `sync.Mutex` of `SiteStore` is not represented: every method is modelled
as one sequential step, at whose start the mutex is free and at whose end it
has been released by the deferred `Unlock`.
-/

namespace SiteStatus

/-! ## Go-level plumbing -/

/-- A non-nil Go `error` value. `main.go` only ever tests an error against
nil, so the text is a label and nothing depends on it. -/
abbrev Error := String

/-- How a Go call ends: it returns a value; or the goroutine panics (here
always a nil-pointer dereference), which takes the whole process down; or it
never returns because it waits on a channel that no goroutine will send on. -/
inductive Outcome (α : Type) where
  | returned (a : α)
  | panicked
  | blocked
  deriving DecidableEq, Repr

/-- One node inside an XML element, as `encoding/xml` tokenizes it: a child
element with its local name and content, or a run of character data.
Attributes, comments, directives and processing instructions do not reach
any field of the structs in `main.go` and are left out. -/
inductive Node where
  | element (name : String) (children : List Node)
  | chardata (data : String)

/-- What a response body holds after the end tag of its first top-level
element: only what XML allows there (white space, comments, processing
instructions), or anything else, such as a further tag. -/
inductive Epilog where
  | misc
  | junk (raw : String)

/-- A response body, by what `encoding/xml` makes of it. Either the decoder
fails before the first top-level element has been read to its end tag (a
syntax error such as a missing closing tag, or `io.EOF` when there is no
element at all), or it delivers that element; `xml.Unmarshal` stops reading
at the end tag, so what follows it is carried along unread. What
`ioutil.ReadAll` returned, in full or cut short (its error is dropped at
`main.go:55`), is what gets decoded. -/
inductive Body where
  | malformed (err : Error)
  | document (root : String) (children : List Node) (epilog : Epilog)

/-- The fields of `http.Response` that `main.go` reads. -/
structure Response where
  StatusCode : Int
  Body : Body

/-- The pair `(resp, err)` returned by a call of `http.Get` that completes;
`none` is `nil`. A transport failure is `(nil, err)`; the one case in which
the library returns both non-nil is a redirect chain it refuses to follow. -/
structure GetResult where
  resp : Option Response
  err : Option Error

/-- The value of `http.StatusOK`. -/
def StatusOK : Int := 200

/-- The constant `siteURL` of `main.go:15`. -/
def siteURL : String := "https://musale.github.io/sitemap.xml"

/-! ## `Site` and `SiteStore` -/

/-- The struct `Site` (`main.go:87`). -/
structure Site where
  URL : String
  Up : Bool
  deriving DecidableEq, Repr

/-- The struct `SiteStore` (`main.go:21`), without its mutex. -/
structure SiteStore where
  sites : List Site
  deriving DecidableEq, Repr

/-- `NewSiteStore` (`main.go:27`): the zero value, whose `sites` is nil. -/
def NewSiteStore : SiteStore := { sites := [] }

/-- `getSites` (`main.go:32`): the stored slice, and the store after the call. -/
def SiteStore.getSites (s : SiteStore) : List Site × SiteStore :=
  (s.sites, s)

/-- `setSites` (`main.go:40`): the store after `s.sites = sites`. -/
def SiteStore.setSites (s : SiteStore) (sites : List Site) : SiteStore :=
  { s with sites := sites }

/-! ## `checkStatus` -/

/-- `checkStatus` (`main.go:93`). `httpGet` is `http.Get`. The receiver is a
pointer to the caller's copy of the Site, so the result is the only effect.
After the first `if` the code reads `resp.StatusCode` whatever `err` was:
with `resp == nil` that dereference panics. -/
def Site.checkStatus (httpGet : String → GetResult) (s : Site) : Outcome Site :=
  let r := httpGet s.URL
  let s1 : Site := if r.err ≠ none then { s with Up := false } else s
  match r.resp with
  | none => .panicked
  | some resp =>
    if resp.StatusCode ≠ StatusOK then
      .returned { s1 with Up := false }
    else
      .returned { s1 with Up := true }

/-! ## `xml.Unmarshal` into `siteMapVals` -/

/-- Go's `unicode.IsSpace`. -/
def isSpace (c : Char) : Bool :=
  let n := c.toNat
  (9 ≤ n && n ≤ 13) || n = 32 || n = 0x85 || n = 0xA0 || n = 0x1680 ||
  (0x2000 ≤ n && n ≤ 0x200A) || n = 0x2028 || n = 0x2029 || n = 0x202F ||
  n = 0x205F || n = 0x3000

/-- Go's `strings.TrimSpace`. -/
def trimSpace (str : String) : String :=
  String.mk ((str.data.dropWhile isSpace).reverse.dropWhile isSpace).reverse

/-- Go's `strconv.ParseBool`. -/
def parseBool (str : String) : Except Error Bool :=
  if str ∈ ["1", "t", "T", "TRUE", "true", "True"] then .ok true
  else if str ∈ ["0", "f", "F", "FALSE", "false", "False"] then .ok false
  else .error "strconv.ParseBool: invalid syntax"

/-- The character data directly inside an element, concatenated: what
`xml.Unmarshal` saves for an element mapped to a string or a bool. Character
data of nested elements is skipped with them. -/
def charData : List Node → String
  | [] => ""
  | .chardata d :: rest => d ++ charData rest
  | .element _ _ :: rest => charData rest

/-- How `xml.Unmarshal` sets a `bool` field from an element's character data:
empty data gives false, otherwise the trimmed data goes through `ParseBool`. -/
def copyBool (src : String) : Except Error Bool :=
  if src = "" then .ok false else parseBool (trimSpace src)

/-- `xml.Unmarshal` of one `url` element into a `Site` (`main.go:87`): field
`URL` is tagged `xml:"loc"`, field `Up` has no tag and so answers to a child
element named `Up`. Children are taken in document order, a later match
overwriting an earlier one; every other child is skipped. -/
def unmarshalSite : List Node → Site → Except Error Site
  | [], v => .ok v
  | .chardata _ :: rest, v => unmarshalSite rest v
  | .element name children :: rest, v =>
    if name = "loc" then
      unmarshalSite rest { v with URL := charData children }
    else if name = "Up" then
      match copyBool (charData children) with
      | .error e => .error e
      | .ok b => unmarshalSite rest { v with Up := b }
    else
      unmarshalSite rest v

/-- `xml.Unmarshal` of the children of the top-level element into the field
`URLs []Site` tagged `xml:"url"` of `siteMapVals` (`main.go:57`): each child
element named `url` appends one `Site`, starting from the zero value. The
other field, `Name xml.Name` tagged `xml:"urlset"`, is not called `XMLName`,
so it does not constrain the top-level element's name; it records the name of
a child named `urlset` and is never read. -/
def unmarshalURLs : List Node → List Site → Except Error (List Site)
  | [], acc => .ok acc
  | .chardata _ :: rest, acc => unmarshalURLs rest acc
  | .element name children :: rest, acc =>
    if name = "url" then
      match unmarshalSite children { URL := "", Up := false } with
      | .error e => .error e
      | .ok site => unmarshalURLs rest (acc ++ [site])
    else
      unmarshalURLs rest acc

/-- The call `xml.Unmarshal(vals, &smVals)` of `main.go:62`, giving the error
or `smVals.URLs`. -/
def xmlUnmarshal : Body → Except Error (List Site)
  | .malformed err => .error err
  | .document _ children _ => unmarshalURLs children []

/-! ## `fetchSites` and `fetchSitesStatuses` -/

/-- `fetchSites` (`main.go:48`): the returned `error` (`none` is nil) and the
store after the call. `httpGet` is `http.Get`. With `err == nil` the code
dereferences `sitemap` for `sitemap.Body`. -/
def SiteStore.fetchSites (httpGet : String → GetResult) (s : SiteStore) :
    Outcome (Option Error × SiteStore) :=
  let r := httpGet siteURL
  match r.err with
  | some err => .returned (some err, s)
  | none =>
    match r.resp with
    | none => .panicked
    | some sitemap =>
      match xmlUnmarshal sitemap.Body with
      | .error err => .returned (some err, s)
      | .ok urls => .returned (none, s.setSites urls)

/-- The first loop of `fetchSitesStatuses` (`main.go:74`): one goroutine per
stored Site, in slice order, each running `checkStatus` on its own copy.
`probe i` is `http.Get` as the goroutine numbered `i` meets it; goroutines
are numbered from `i` on. The list holds what each goroutine's `checkStatus`
call comes to. -/
def spawn (probe : Nat → String → GetResult) : Nat → List Site → List (Outcome Site)
  | _, [] => []
  | i, site :: rest => Site.checkStatus (probe i) site :: spawn probe (i + 1) rest

/-- The values the goroutines send on `sitesCh`, in goroutine order; a
goroutine whose `checkStatus` panics brings the process down. -/
def sends : List (Outcome Site) → Outcome (List Site)
  | [] => .returned []
  | .returned v :: rest =>
    match sends rest with
    | .returned vs => .returned (v :: vs)
    | .panicked => .panicked
    | .blocked => .blocked
  | .panicked :: _ => .panicked
  | .blocked :: rest =>
    match sends rest with
    | .panicked => .panicked
    | _ => .blocked

/-- The second loop of `fetchSitesStatuses` (`main.go:79`): `n` receives from
the unbuffered channel, each appended to `sites`. `pending` are the values of
the goroutines that have not sent yet; the schedule picks, for each receive,
which of them gets through (its head, modulo the number pending; an exhausted
schedule picks the first). A receive with no sender left never returns. -/
def receiveLoop : Nat → List Nat → List Site → List Site → Outcome (List Site)
  | 0, _, _, sites => .returned sites
  | n + 1, sched, pending, sites =>
    match pending[sched.headD 0 % pending.length]? with
    | none => .blocked
    | some v =>
      receiveLoop n sched.tail (pending.eraseIdx (sched.headD 0 % pending.length))
        (sites ++ [v])

/-- The part of `fetchSitesStatuses` after the call of `fetchSites`
(`main.go:72`-`82`): probe every stored Site concurrently, collect the
results in completion order, store them. -/
def SiteStore.probeAll (probe : Nat → String → GetResult) (sched : List Nat)
    (s : SiteStore) : Outcome SiteStore :=
  match sends (spawn probe 0 s.sites) with
  | .panicked => .panicked
  | .blocked => .blocked
  | .returned pending =>
    match receiveLoop s.sites.length sched pending [] with
    | .returned sites => .returned (s.setSites sites)
    | .panicked => .panicked
    | .blocked => .blocked

/-- `fetchSitesStatuses` (`main.go:70`). The error returned by `fetchSites`
is dropped (`main.go:71`); the loops then run on whatever `s.sites` holds. -/
def SiteStore.fetchSitesStatuses (httpGet : String → GetResult)
    (probe : Nat → String → GetResult) (sched : List Nat) (s : SiteStore) :
    Outcome SiteStore :=
  match s.fetchSites httpGet with
  | .panicked => .panicked
  | .blocked => .blocked
  | .returned (_, s1) => s1.probeAll probe sched

/-! ## Shapes of input named by the specification -/

/-- The `url` entry `<url><loc>u</loc></url>`. -/
def urlEntry (u : String) : Node :=
  .element "url" [.element "loc" [.chardata u]]

/-- The sitemap body `<urlset><url><loc>URL</loc></url>...</urlset>` with one
`url` entry per element of `locs`, in order. -/
def sitemapBody (locs : List String) : Body :=
  .document "urlset" (locs.map urlEntry) .misc

/-- Some child of a `url` entry is a `loc` element. -/
def hasLoc : List Node → Bool
  | [] => false
  | .chardata _ :: rest => hasLoc rest
  | .element name _ :: rest => name == "loc" || hasLoc rest

/-- Every `loc` child of a `url` entry has non-empty character data. -/
def locsNonEmpty : List Node → Bool
  | [] => true
  | .chardata _ :: rest => locsNonEmpty rest
  | .element name children :: rest =>
    (name != "loc" || charData children != "") && locsNonEmpty rest

/-- Every `url` entry among the children of the top-level element has a `loc`
child, and each of its `loc` children has non-empty character data. -/
def entriesLocated : List Node → Bool
  | [] => true
  | .chardata _ :: rest => entriesLocated rest
  | .element name children :: rest =>
    (name != "url" || (hasLoc children && locsNonEmpty children)) && entriesLocated rest

/-- A body all of whose `url` entries carry a non-empty `loc` text. -/
def Body.located : Body → Bool
  | .malformed _ => true
  | .document _ children _ => entriesLocated children

/-- A body that is well-formed XML: the decoder gets through its top-level
element, and nothing but what XML allows follows that element. -/
def Body.wellFormed : Body → Bool
  | .malformed _ => false
  | .document _ _ .misc => true
  | .document _ _ (.junk _) => false

/-- A body that `xml.Unmarshal` maps onto `siteMapVals` without error. -/
def Body.parses (b : Body) : Prop :=
  ∃ urls, xmlUnmarshal b = .ok urls

/-- The sitemap fetch fails: the GET hands back an error, or the body it
delivers does not unmarshal. -/
def FetchFails (httpGet : String → GetResult) : Prop :=
  (httpGet siteURL).err ≠ none ∨
    ∃ resp e, (httpGet siteURL).resp = some resp ∧ xmlUnmarshal resp.Body = .error e

/-- The invariant of the data model: every stored Site has a non-empty URL. -/
def SiteStore.urlsNonEmpty (s : SiteStore) : Prop :=
  ∀ site ∈ s.sites, site.URL ≠ ""

/-! ## Reachable stores -/

/-- The store states reachable from `NewSiteStore()` by runs of `fetchSites`
and `fetchSitesStatuses` that return, when every sitemap body that `http.Get`
delivers satisfies `ok`. -/
inductive Reachable (ok : Body → Prop) : SiteStore → Prop where
  | init : Reachable ok NewSiteStore
  | fetchSites (s s1 : SiteStore) (httpGet : String → GetResult) (err : Option Error) :
      Reachable ok s →
      (∀ resp, (httpGet siteURL).resp = some resp → ok resp.Body) →
      s.fetchSites httpGet = .returned (err, s1) →
      Reachable ok s1
  | fetchSitesStatuses (s s1 : SiteStore) (httpGet : String → GetResult)
      (probe : Nat → String → GetResult) (sched : List Nat) :
      Reachable ok s →
      (∀ resp, (httpGet siteURL).resp = some resp → ok resp.Body) →
      s.fetchSitesStatuses httpGet probe sched = .returned s1 →
      Reachable ok s1

/-! ## Concrete networks used in the examples -/

/-- A server that is down: every GET fails, with no response object. -/
def serverDown : String → GetResult :=
  fun _ => ⟨none, some "dial tcp: connection refused"⟩

/-- A sitemap server answering 200 with the given body. -/
def sitemapServes (b : Body) : String → GetResult :=
  fun _ => ⟨some ⟨200, b⟩, none⟩

/-- Probes in which `http://b.example` answers 500 and every other URL 200. -/
def probeAllButB : Nat → String → GetResult :=
  fun _ u =>
    if u = "http://b.example" then ⟨some ⟨500, .malformed "EOF"⟩, none⟩
    else ⟨some ⟨200, .malformed "EOF"⟩, none⟩

/-- A store holding three Sites not probed yet. -/
def threeSites : SiteStore :=
  ⟨[⟨"http://a.example", false⟩, ⟨"http://b.example", false⟩, ⟨"http://c.example", false⟩]⟩

/-- The store after a refresh over three Sites in which the third probe
completed first and the second got a 500. -/
def threeProbed : SiteStore :=
  ⟨[⟨"http://c.example", true⟩, ⟨"http://a.example", true⟩, ⟨"http://b.example", false⟩]⟩

/-- A store left by an earlier refresh: one Site down, one up. -/
def twoSites : SiteStore :=
  ⟨[⟨"http://a.example", false⟩, ⟨"http://b.example", true⟩]⟩

/-- The body `<urlset><url><loc>http://c.example</loc></url></urlset><oops`:
a sitemap followed by a tag that is never closed. -/
def sitemapThenJunk : Body :=
  .document "urlset" [urlEntry "http://c.example"] (.junk "<oops")

/-- The sitemap `<urlset><url></url></urlset>`: one entry, without a `loc`. -/
def sitemapNoLoc : Body :=
  .document "urlset" [.element "url" []] .misc

/-! ## Theorems -/

theorem unmarshalSite_urlEntry (u : String) :
    unmarshalSite [.element "loc" [.chardata u]] { URL := "", Up := false }
      = .ok { URL := u, Up := false } := by
  simp [unmarshalSite, charData]

theorem unmarshalURLs_urlEntries (locs : List String) (acc : List Site) :
    unmarshalURLs (locs.map urlEntry) acc
      = .ok (acc ++ locs.map (fun u => { URL := u, Up := false })) := by
  induction locs generalizing acc with
  | nil => simp [unmarshalURLs]
  | cons u rest ih =>
    simp only [List.map_cons, urlEntry]
    rw [unmarshalURLs]
    simp only [if_true, unmarshalSite_urlEntry]
    have := ih (acc ++ [{ URL := u, Up := false }])
    simp only [urlEntry] at this
    simp [this]

theorem checkStatus_of_response (httpGet : String → GetResult) (s : Site) (resp : Response)
    (h : (httpGet s.URL).resp = some resp) :
    s.checkStatus httpGet
      = .returned { URL := s.URL, Up := decide (resp.StatusCode = 200) } := by
  by_cases hc : resp.StatusCode = 200 <;> by_cases he : (httpGet s.URL).err = none <;>
    simp [Site.checkStatus, h, StatusOK, hc, he]

theorem checkStatus_nil_response (httpGet : String → GetResult) (s : Site)
    (h : (httpGet s.URL).resp = none) :
    s.checkStatus httpGet = .panicked := by
  simp [Site.checkStatus, h]

/-! ### The probing phase -/

theorem spawn_length (probe : Nat → String → GetResult) (i : Nat) (l : List Site) :
    (spawn probe i l).length = l.length := by
  induction l generalizing i with
  | nil => rfl
  | cons site rest ih => simp [spawn, ih]

/-- When every goroutine's probe hands back a response, every goroutine has a
value to send: its own `checkStatus` result. -/
theorem sends_spawn_of_responses (probe : Nat → String → GetResult) (i : Nat) (l : List Site)
    (h : ∀ j (hj : j < l.length), (probe (i + j) l[j].URL).resp ≠ none) :
    ∃ vs, sends (spawn probe i l) = .returned vs ∧
      vs.map Outcome.returned = spawn probe i l := by
  induction l generalizing i with
  | nil => exact ⟨[], rfl, rfl⟩
  | cons site rest ih =>
    have h0 := h 0 (by simp)
    simp only [Nat.add_zero, List.getElem_cons_zero] at h0
    obtain ⟨resp, hresp⟩ := Option.ne_none_iff_exists'.mp h0
    have hrest : ∀ j (hj : j < rest.length), (probe (i + 1 + j) rest[j].URL).resp ≠ none := by
      intro j hj
      have := h (j + 1) (by simpa using hj)
      simpa [Nat.add_assoc, Nat.add_comm 1 j] using this
    obtain ⟨vs, hvs, hmap⟩ := ih (i + 1) hrest
    refine ⟨{ URL := site.URL, Up := decide (resp.StatusCode = 200) } :: vs, ?_, ?_⟩
    · simp [spawn, sends, checkStatus_of_response _ _ _ hresp, hvs]
    · simp [spawn, checkStatus_of_response _ _ _ hresp, hmap]

theorem perm_cons_eraseIdx {α : Type} (l : List α) (k : Nat) (hk : k < l.length) :
    l.Perm (l[k] :: l.eraseIdx k) := by
  induction l generalizing k with
  | nil => simp at hk
  | cons a rest ih =>
    cases k with
    | zero => simp
    | succ k =>
      have hk1 : k < rest.length := by simpa using hk
      simp only [List.getElem_cons_succ, List.eraseIdx_cons_succ]
      exact ((ih k hk1).cons a).trans (List.Perm.swap _ _ _)

/-- With as many pending sends as receives, the receive loop returns, and
what it has collected is a permutation of the values sent, after what
`sites` held already. -/
theorem receiveLoop_perm (n : Nat) (sched : List Nat) (pending sites : List Site)
    (hn : pending.length = n) :
    ∃ out, receiveLoop n sched pending sites = .returned out ∧
      out.Perm (sites ++ pending) := by
  induction n generalizing sched pending sites with
  | zero =>
    have : pending = [] := List.length_eq_zero.mp hn
    subst this
    exact ⟨sites, rfl, by simp⟩
  | succ n ih =>
    have hk : sched.headD 0 % pending.length < pending.length :=
      Nat.mod_lt _ (by omega)
    obtain ⟨out, hout, hperm⟩ := ih sched.tail
      (pending.eraseIdx (sched.headD 0 % pending.length))
      (sites ++ [pending[sched.headD 0 % pending.length]])
      (by rw [List.length_eraseIdx, if_pos hk]; omega)
    refine ⟨out, ?_, ?_⟩
    · rw [receiveLoop, List.getElem?_eq_getElem hk]
      exact hout
    · refine hperm.trans ?_
      rw [List.append_assoc]
      exact List.Perm.append_left sites (perm_cons_eraseIdx pending _ hk).symm

theorem checkStatus_url (httpGet : String → GetResult) (s v : Site)
    (h : s.checkStatus httpGet = .returned v) : v.URL = s.URL := by
  cases hr : (httpGet s.URL).resp with
  | none => simp [checkStatus_nil_response httpGet s hr] at h
  | some resp =>
    rw [checkStatus_of_response httpGet s resp hr] at h
    cases h
    rfl

/-- The values sent carry the URLs of the Sites probed, in goroutine order. -/
theorem sends_spawn_urls (probe : Nat → String → GetResult) (i : Nat) (l vs : List Site)
    (h : sends (spawn probe i l) = .returned vs) :
    vs.map Site.URL = l.map Site.URL := by
  induction l generalizing i vs with
  | nil =>
    simp only [spawn, sends, Outcome.returned.injEq] at h
    subst h
    rfl
  | cons site rest ih =>
    simp only [spawn, sends] at h
    cases hc : Site.checkStatus (probe i) site with
    | panicked => simp [hc, sends] at h
    | blocked =>
      rw [hc] at h
      simp only [sends] at h
      split at h <;> simp at h
    | returned v =>
      rw [hc] at h
      simp only [sends] at h
      cases hs : sends (spawn probe (i + 1) rest) with
      | panicked => simp [hs] at h
      | blocked => simp [hs] at h
      | returned ws =>
        simp only [hs, Outcome.returned.injEq] at h
        subst h
        simp [ih (i + 1) ws hs, checkStatus_url _ _ _ hc]

/-- Whatever the receive loop returns was in `sites` or among the values
pending. -/
theorem receiveLoop_mem (n : Nat) (sched : List Nat) (pending sites out : List Site)
    (h : receiveLoop n sched pending sites = .returned out) :
    ∀ x ∈ out, x ∈ sites ∨ x ∈ pending := by
  induction n generalizing sched pending sites with
  | zero =>
    simp only [receiveLoop, Outcome.returned.injEq] at h
    subst h
    exact fun x hx => Or.inl hx
  | succ n ih =>
    rw [receiveLoop] at h
    generalize sched.headD 0 % pending.length = k at h
    cases hv : pending[k]? with
    | none => simp [hv] at h
    | some v =>
      simp only [hv] at h
      intro x hx
      rcases ih _ _ _ h x hx with hx | hx
      · rcases List.mem_append.mp hx with hx | hx
        · exact Or.inl hx
        · have : x = v := by simpa using hx
          subst this
          exact Or.inr (List.getElem?_mem hv)
      · exact Or.inr (List.mem_of_mem_eraseIdx hx)

/-- Every Site stored by a probing phase that returns carries the URL of a
Site the store held before. -/
theorem probeAll_urls (probe : Nat → String → GetResult) (sched : List Nat)
    (s s2 : SiteStore) (h : s.probeAll probe sched = .returned s2) :
    ∀ x ∈ s2.sites, ∃ y ∈ s.sites, x.URL = y.URL := by
  unfold SiteStore.probeAll at h
  cases hs : sends (spawn probe 0 s.sites) with
  | panicked => simp [hs] at h
  | blocked => simp [hs] at h
  | returned vs =>
    simp only [hs] at h
    cases hr : receiveLoop s.sites.length sched vs [] with
    | panicked => simp [hr] at h
    | blocked => simp [hr] at h
    | returned out =>
      simp only [hr, Outcome.returned.injEq] at h
      subst h
      intro x hx
      have hx1 : x ∈ vs := by
        rcases receiveLoop_mem _ _ _ _ _ hr x hx with h1 | h1
        · simp at h1
        · exact h1
      have hurl : x.URL ∈ s.sites.map Site.URL := by
        rw [← sends_spawn_urls probe 0 s.sites vs hs]
        exact List.mem_map_of_mem _ hx1
      obtain ⟨y, hy, hyx⟩ := List.mem_map.mp hurl
      exact ⟨y, hy, hyx.symm⟩

/-- When every goroutine's probe hands back a response, the probing phase
returns, and the store then holds a permutation of the `checkStatus` results
of the Sites it held. -/
theorem probeAll_of_responses (probe : Nat → String → GetResult) (sched : List Nat)
    (s : SiteStore)
    (h : ∀ j (hj : j < s.sites.length), (probe j s.sites[j].URL).resp ≠ none) :
    ∃ s2, s.probeAll probe sched = .returned s2 ∧
      (s2.sites.map Outcome.returned).Perm (spawn probe 0 s.sites) ∧
      (s2.sites.map Site.URL).Perm (s.sites.map Site.URL) := by
  obtain ⟨vs, hvs, hmap⟩ := sends_spawn_of_responses probe 0 s.sites
    (by intro j hj; simpa using h j hj)
  have hlen : vs.length = s.sites.length := by
    have := congrArg List.length hmap
    simpa [spawn_length] using this
  obtain ⟨out, hout, hperm⟩ := receiveLoop_perm s.sites.length sched vs [] hlen
  refine ⟨s.setSites out, ?_, ?_, ?_⟩
  · simp [SiteStore.probeAll, hvs, hout]
  · rw [← hmap]
    simpa [SiteStore.setSites] using hperm.map Outcome.returned
  · rw [← sends_spawn_urls probe 0 s.sites vs hvs]
    simpa [SiteStore.setSites] using hperm.map Site.URL

/-- The refresh is `fetchSites`, its error dropped, then the probing phase on
the store `fetchSites` left. -/
theorem fetchSitesStatuses_of_fetchSites (httpGet : String → GetResult)
    (probe : Nat → String → GetResult) (sched : List Nat) (s s1 : SiteStore)
    (err : Option Error) (h : s.fetchSites httpGet = .returned (err, s1)) :
    s.fetchSitesStatuses httpGet probe sched = s1.probeAll probe sched := by
  simp [SiteStore.fetchSitesStatuses, h]

theorem fetchSites_of_fetchFails (httpGet : String → GetResult) (s : SiteStore)
    (h : FetchFails httpGet) :
    ∃ err, s.fetchSites httpGet = .returned (some err, s) := by
  cases herr : (httpGet siteURL).err with
  | some err => exact ⟨err, by simp [SiteStore.fetchSites, herr]⟩
  | none =>
    rcases h with h | ⟨resp, e, hresp, hbody⟩
    · exact absurd herr h
    · exact ⟨e, by simp [SiteStore.fetchSites, herr, hresp, hbody]⟩

theorem fetchSites_of_parse (httpGet : String → GetResult) (s : SiteStore)
    (resp : Response) (urls : List Site)
    (hget : httpGet siteURL = ⟨some resp, none⟩)
    (hparse : xmlUnmarshal resp.Body = .ok urls) :
    s.fetchSites httpGet = .returned (none, ⟨urls⟩) := by
  simp [SiteStore.fetchSites, hget, hparse, SiteStore.setSites]

/-- Every order of completion is the outcome of some schedule. -/
theorem receiveLoop_complete (out pending sites : List Site) (h : out.Perm pending) :
    ∃ sched, receiveLoop pending.length sched pending sites = .returned (sites ++ out) := by
  induction out generalizing pending sites with
  | nil =>
    have : pending = [] := List.perm_nil.mp h.symm
    subst this
    exact ⟨[], by simp [receiveLoop]⟩
  | cons x rest ih =>
    have hx : x ∈ pending := h.subset (List.mem_cons_self x rest)
    obtain ⟨k, hk, hkx⟩ := List.getElem_of_mem hx
    have hrest : rest.Perm (pending.eraseIdx k) := by
      have h1 := h.trans (perm_cons_eraseIdx pending k hk)
      rw [hkx] at h1
      exact h1.cons_inv
    obtain ⟨sched, hsched⟩ := ih (pending.eraseIdx k) (sites ++ [x]) hrest
    have hlen : pending.length = (pending.eraseIdx k).length + 1 := by
      rw [List.length_eraseIdx, if_pos hk]; omega
    refine ⟨k :: sched, ?_⟩
    rw [hlen, receiveLoop]
    have hmod : (k :: sched).headD 0 % pending.length = k := by
      simpa using Nat.mod_eq_of_lt hk
    rw [hmod, List.getElem?_eq_getElem hk, hkx]
    simpa using hsched

/-! ### Unmarshalling and the URL invariant -/

theorem unmarshalSite_url_ne (children : List Node) (v site : Site)
    (h : unmarshalSite children v = .ok site)
    (hne : locsNonEmpty children = true)
    (hv : v.URL ≠ "" ∨ hasLoc children = true) :
    site.URL ≠ "" := by
  induction children generalizing v with
  | nil =>
    simp only [unmarshalSite, Except.ok.injEq] at h
    subst h
    simpa [hasLoc] using hv
  | cons node rest ih =>
    cases node with
    | chardata d =>
      simp only [unmarshalSite] at h
      simp only [locsNonEmpty] at hne
      simp only [hasLoc] at hv
      exact ih v h hne hv
    | element name ch =>
      simp only [locsNonEmpty, Bool.and_eq_true, Bool.or_eq_true, bne_iff_ne, ne_eq] at hne
      simp only [hasLoc, Bool.or_eq_true, beq_iff_eq] at hv
      rw [unmarshalSite] at h
      by_cases hloc : name = "loc"
      · rw [if_pos hloc] at h
        refine ih _ h hne.2 (Or.inl ?_)
        rcases hne.1 with h1 | h1
        · exact absurd hloc h1
        · exact h1
      · rw [if_neg hloc] at h
        have hv1 : v.URL ≠ "" ∨ hasLoc rest = true := by
          rcases hv with hv | hv | hv
          · exact Or.inl hv
          · exact absurd hv hloc
          · exact Or.inr hv
        by_cases hup : name = "Up"
        · rw [if_pos hup] at h
          cases hb : copyBool (charData ch) with
          | error e => simp [hb] at h
          | ok b =>
            simp only [hb] at h
            exact ih _ h hne.2 hv1
        · rw [if_neg hup] at h
          exact ih v h hne.2 hv1

theorem unmarshalURLs_url_ne (nodes : List Node) (acc out : List Site)
    (h : unmarshalURLs nodes acc = .ok out)
    (hloc : entriesLocated nodes = true)
    (hacc : ∀ x ∈ acc, x.URL ≠ "") :
    ∀ x ∈ out, x.URL ≠ "" := by
  induction nodes generalizing acc with
  | nil =>
    simp only [unmarshalURLs, Except.ok.injEq] at h
    subst h
    exact hacc
  | cons node rest ih =>
    cases node with
    | chardata d =>
      simp only [unmarshalURLs] at h
      simp only [entriesLocated] at hloc
      exact ih acc h hloc hacc
    | element name ch =>
      simp only [entriesLocated, Bool.and_eq_true, Bool.or_eq_true, bne_iff_ne, ne_eq] at hloc
      rw [unmarshalURLs] at h
      by_cases hurl : name = "url"
      · rw [if_pos hurl] at h
        cases hs : unmarshalSite ch { URL := "", Up := false } with
        | error e => simp [hs] at h
        | ok site =>
          simp only [hs] at h
          have hch : hasLoc ch = true ∧ locsNonEmpty ch = true := by
            rcases hloc.1 with h1 | h1
            · exact absurd hurl h1
            · exact h1
          have hsite := unmarshalSite_url_ne ch _ site hs hch.2 (Or.inr hch.1)
          refine ih _ h hloc.2 ?_
          intro x hx
          rcases List.mem_append.mp hx with hx | hx
          · exact hacc x hx
          · have : x = site := by simpa using hx
            rw [this]
            exact hsite
      · rw [if_neg hurl] at h
        exact ih acc h hloc.2 hacc

theorem fetchSites_urlsNonEmpty (httpGet : String → GetResult) (s s1 : SiteStore)
    (err : Option Error)
    (hbody : ∀ resp, (httpGet siteURL).resp = some resp → resp.Body.located = true)
    (h : s.fetchSites httpGet = .returned (err, s1)) (hs : s.urlsNonEmpty) :
    s1.urlsNonEmpty := by
  unfold SiteStore.fetchSites at h
  cases he : (httpGet siteURL).err with
  | some e =>
    simp only [he, Outcome.returned.injEq, Prod.mk.injEq] at h
    rw [← h.2]
    exact hs
  | none =>
    simp only [he] at h
    cases hr : (httpGet siteURL).resp with
    | none => simp [hr] at h
    | some resp =>
      simp only [hr] at h
      cases hx : xmlUnmarshal resp.Body with
      | error e =>
        simp only [hx, Outcome.returned.injEq, Prod.mk.injEq] at h
        rw [← h.2]
        exact hs
      | ok urls =>
        simp only [hx, Outcome.returned.injEq, Prod.mk.injEq] at h
        rw [← h.2]
        have hl := hbody resp hr
        cases hb : resp.Body with
        | malformed e => simp [hb, xmlUnmarshal] at hx
        | document root children epilog =>
          rw [hb] at hx hl
          exact unmarshalURLs_url_ne children [] urls hx hl (by simp)

theorem probeAll_urlsNonEmpty (probe : Nat → String → GetResult) (sched : List Nat)
    (s s2 : SiteStore) (h : s.probeAll probe sched = .returned s2) (hs : s.urlsNonEmpty) :
    s2.urlsNonEmpty := by
  intro x hx
  obtain ⟨y, hy, hxy⟩ := probeAll_urls probe sched s s2 h x hx
  rw [hxy]
  exact hs y hy

theorem fetchSitesStatuses_urlsNonEmpty (httpGet : String → GetResult)
    (probe : Nat → String → GetResult) (sched : List Nat) (s s2 : SiteStore)
    (hbody : ∀ resp, (httpGet siteURL).resp = some resp → resp.Body.located = true)
    (h : s.fetchSitesStatuses httpGet probe sched = .returned s2) (hs : s.urlsNonEmpty) :
    s2.urlsNonEmpty := by
  unfold SiteStore.fetchSitesStatuses at h
  cases hf : s.fetchSites httpGet with
  | panicked => simp [hf] at h
  | blocked => simp [hf] at h
  | returned r =>
    obtain ⟨err, s1⟩ := r
    simp only [hf] at h
    exact probeAll_urlsNonEmpty probe sched s1 s2 h
      (fetchSites_urlsNonEmpty httpGet s s1 err hbody hf hs)

theorem reachable_urlsNonEmpty (ok : Body → Prop) (hok : ∀ b, ok b → b.located = true)
    (s : SiteStore) (h : Reachable ok s) : s.urlsNonEmpty := by
  induction h with
  | init => intro x hx; simp [NewSiteStore] at hx
  | fetchSites s s1 httpGet err _ hbody hrun ih =>
    exact fetchSites_urlsNonEmpty httpGet s s1 err (fun r hr => hok _ (hbody r hr)) hrun ih
  | fetchSitesStatuses s s1 httpGet probe sched _ hbody hrun ih =>
    exact fetchSitesStatuses_urlsNonEmpty httpGet probe sched s s1
      (fun r hr => hok _ (hbody r hr)) hrun ih

theorem probeAllButB_responds (j : Nat) (u : String) : (probeAllButB j u).resp ≠ none := by
  unfold probeAllButB
  split <;> simp

theorem fetchFails_serverDown : FetchFails serverDown :=
  Or.inl (by simp [serverDown])

/-- C1 (the code fails it): when `http.Get` hands back no response object,
`checkStatus` does not return a Site with `Up = false`; it panics on the nil
response, whatever the Site and whatever the error. -/
theorem checkStatus_panics_without_response (httpGet : String → GetResult) (s : Site)
    (h : (httpGet s.URL).resp = none) :
    s.checkStatus httpGet = .panicked :=
  checkStatus_nil_response httpGet s h

theorem checkStatus_panics_without_response_witness :
    (serverDown "http://a.example").resp = none ∧
      Site.checkStatus serverDown { URL := "http://a.example", Up := true } = .panicked :=
  ⟨rfl, checkStatus_panics_without_response serverDown
    { URL := "http://a.example", Up := true } rfl⟩

/-- C2: when the probe hands back a response, `checkStatus` returns a Site
with the input URL whose `Up` is true exactly when the status code is 200,
whatever `Up` was before. -/
theorem checkStatus_up_iff_200 (httpGet : String → GetResult) (s : Site) (resp : Response)
    (h : (httpGet s.URL).resp = some resp) :
    ∃ out, s.checkStatus httpGet = .returned out ∧ out.URL = s.URL ∧
      (out.Up = true ↔ resp.StatusCode = 200) := by
  refine ⟨{ URL := s.URL, Up := decide (resp.StatusCode = 200) }, ?_, rfl, by simp⟩
  exact checkStatus_of_response httpGet s resp h

theorem checkStatus_up_iff_200_witness :
    ∃ out, Site.checkStatus (fun _ => ⟨some ⟨204, .malformed ""⟩, none⟩)
        { URL := "http://a.example", Up := true } = .returned out ∧
      out.URL = "http://a.example" ∧ (out.Up = true ↔ (204 : Int) = 200) :=
  checkStatus_up_iff_200 (fun _ => ⟨some ⟨204, .malformed ""⟩, none⟩)
    { URL := "http://a.example", Up := true } ⟨204, .malformed ""⟩ rfl

/-- C7: `setSites xs` followed by `getSites` returns exactly `xs`, whatever
the store held, and `getSites` leaves the store as it was. -/
theorem getSites_setSites (s : SiteStore) (xs : List Site) :
    (s.setSites xs).getSites.1 = xs ∧ (s.setSites xs).getSites.2 = s.setSites xs ∧
      s.getSites.2 = s :=
  ⟨rfl, rfl, rfl⟩

/-- C4: on a body `<urlset><url><loc>URL</loc></url>...</urlset>` with N url
entries, `fetchSites` returns a nil error and leaves N Sites in the store,
the i-th with the i-th loc text as URL and `Up = false`. -/
theorem fetchSites_sitemapBody (httpGet : String → GetResult) (s : SiteStore)
    (code : Int) (locs : List String)
    (h : httpGet siteURL = ⟨some ⟨code, sitemapBody locs⟩, none⟩) :
    ∃ s1, s.fetchSites httpGet = .returned (none, s1) ∧
      s1.sites.length = locs.length ∧
      s1.sites = locs.map (fun u => { URL := u, Up := false }) := by
  refine ⟨⟨locs.map (fun u => { URL := u, Up := false })⟩, ?_, by simp, rfl⟩
  simp [SiteStore.fetchSites, h, xmlUnmarshal, sitemapBody, unmarshalURLs_urlEntries,
    SiteStore.setSites]

theorem fetchSites_sitemapBody_witness :
    ∃ s1, SiteStore.fetchSites
        (fun _ => ⟨some ⟨200, sitemapBody ["http://a.example", "http://b.example"]⟩, none⟩)
        ⟨[{ URL := "http://old.example", Up := true }]⟩ = .returned (none, s1) ∧
      s1.sites.length = ["http://a.example", "http://b.example"].length ∧
      s1.sites = ["http://a.example", "http://b.example"].map
        (fun u => { URL := u, Up := false }) :=
  fetchSites_sitemapBody _ _ 200 _ rfl

/-- C5 (as amended): if the sitemap GET fails, or `xml.Unmarshal` returns an
error for the body, as it does for a body malformed before the end tag of its
first top-level element, `fetchSites` returns a non-nil error and the store
is what it was. -/
theorem fetchSites_failure_keeps_store (httpGet : String → GetResult) (s : SiteStore)
    (h : (httpGet siteURL).err ≠ none ∨
      ∃ resp e, (httpGet siteURL).resp = some resp ∧ xmlUnmarshal resp.Body = .error e) :
    ∃ err, s.fetchSites httpGet = .returned (some err, s) :=
  fetchSites_of_fetchFails httpGet s h

theorem fetchSites_failure_keeps_store_witness :
    xmlUnmarshal (.malformed "XML syntax error: unexpected EOF")
        = .error "XML syntax error: unexpected EOF" ∧
    ∃ err, twoSites.fetchSites
        (sitemapServes (.malformed "XML syntax error: unexpected EOF"))
          = .returned (some err, twoSites) :=
  ⟨rfl, fetchSites_failure_keeps_store _ twoSites (Or.inr ⟨_, _, rfl, rfl⟩)⟩

/-- C5 (counterexample): the body
`<urlset><url><loc>http://c.example</loc></url></urlset><oops` is not
well-formed XML, yet `fetchSites` returns a nil error on it and replaces the
two stored Sites by the one it unmarshalled. -/
theorem fetchSites_accepts_trailing_junk :
    sitemapThenJunk.wellFormed = false ∧
    twoSites.fetchSites (sitemapServes sitemapThenJunk)
      = .returned (none, ⟨[⟨"http://c.example", false⟩]⟩) ∧
    (⟨[⟨"http://c.example", false⟩]⟩ : SiteStore).sites ≠ twoSites.sites :=
  ⟨rfl, by decide, by decide⟩

/-- C6: after a successful sitemap fetch of N Sites whose probes all hand back
a response, `fetchSitesStatuses` returns under every schedule, and the store
then holds N Sites forming a permutation of the `checkStatus` results of the
fetched Sites; so the URLs are the sitemap's, as a multiset. -/
theorem fetchSitesStatuses_success (httpGet : String → GetResult)
    (probe : Nat → String → GetResult) (sched : List Nat) (s s1 : SiteStore)
    (hfetch : s.fetchSites httpGet = .returned (none, s1))
    (hprobe : ∀ j (hj : j < s1.sites.length), (probe j s1.sites[j].URL).resp ≠ none) :
    ∃ s2, s.fetchSitesStatuses httpGet probe sched = .returned s2 ∧
      s2.sites.length = s1.sites.length ∧
      (s2.sites.map Outcome.returned).Perm (spawn probe 0 s1.sites) ∧
      (s2.sites.map Site.URL).Perm (s1.sites.map Site.URL) := by
  obtain ⟨s2, hrun, hperm, hurls⟩ := probeAll_of_responses probe sched s1 hprobe
  refine ⟨s2, ?_, ?_, hperm, hurls⟩
  · rw [fetchSitesStatuses_of_fetchSites httpGet probe sched s s1 none hfetch, hrun]
  · simpa using hurls.length_eq


theorem fetchSitesStatuses_success_witness :
    NewSiteStore.fetchSitesStatuses
        (sitemapServes (sitemapBody ["http://a.example", "http://b.example", "http://c.example"]))
        probeAllButB [2, 0]
      = .returned ⟨[⟨"http://c.example", true⟩, ⟨"http://a.example", true⟩,
          ⟨"http://b.example", false⟩]⟩ ∧
    ∃ s2, NewSiteStore.fetchSitesStatuses
        (sitemapServes (sitemapBody ["http://a.example", "http://b.example", "http://c.example"]))
        probeAllButB [2, 0] = .returned s2 ∧
      s2.sites.length = threeSites.sites.length ∧
      (s2.sites.map Outcome.returned).Perm (spawn probeAllButB 0 threeSites.sites) ∧
      (s2.sites.map Site.URL).Perm (threeSites.sites.map Site.URL) :=
  ⟨by decide,
    fetchSitesStatuses_success _ probeAllButB [2, 0] NewSiteStore threeSites (by decide)
      (fun j _ => probeAllButB_responds j _)⟩

/-- C3 (as amended): when the sitemap fetch fails and the probes of the Sites
already stored all hand back a response, `fetchSitesStatuses` probes those
Sites again: the store afterwards holds a permutation of their `checkStatus`
results, so the same URLs as a multiset, with fresh `Up` values. -/
theorem fetchSitesStatuses_fetch_failure_reprobes (httpGet : String → GetResult)
    (probe : Nat → String → GetResult) (sched : List Nat) (s : SiteStore)
    (hfail : FetchFails httpGet)
    (hprobe : ∀ j (hj : j < s.sites.length), (probe j s.sites[j].URL).resp ≠ none) :
    ∃ s2, s.fetchSitesStatuses httpGet probe sched = .returned s2 ∧
      (s2.sites.map Outcome.returned).Perm (spawn probe 0 s.sites) ∧
      (s2.sites.map Site.URL).Perm (s.sites.map Site.URL) := by
  obtain ⟨err, hfetch⟩ := fetchSites_of_fetchFails httpGet s hfail
  obtain ⟨s2, hrun, hperm, hurls⟩ := probeAll_of_responses probe sched s hprobe
  exact ⟨s2, by rw [fetchSitesStatuses_of_fetchSites httpGet probe sched s s _ hfetch, hrun],
    hperm, hurls⟩


theorem fetchSitesStatuses_fetch_failure_reprobes_witness :
    FetchFails serverDown ∧
    ∃ s2, twoSites.fetchSitesStatuses serverDown probeAllButB [1] = .returned s2 ∧
      (s2.sites.map Outcome.returned).Perm (spawn probeAllButB 0 twoSites.sites) ∧
      (s2.sites.map Site.URL).Perm (twoSites.sites.map Site.URL) :=
  ⟨fetchFails_serverDown,
    fetchSitesStatuses_fetch_failure_reprobes serverDown probeAllButB [1] twoSites
      fetchFails_serverDown (fun j _ => probeAllButB_responds j _)⟩

/-- C3 (counterexample): the sitemap server is down and the store holds two
Sites; after the refresh the store holds them in the other order with both
`Up` values flipped, not the sequence it held before. -/
theorem fetchSitesStatuses_fetch_failure_store_differs :
    FetchFails serverDown ∧
    twoSites.fetchSitesStatuses serverDown probeAllButB [1]
      = .returned ⟨[⟨"http://b.example", false⟩, ⟨"http://a.example", true⟩]⟩ ∧
    (⟨[⟨"http://b.example", false⟩, ⟨"http://a.example", true⟩]⟩ : SiteStore).sites
      ≠ twoSites.sites :=
  ⟨fetchFails_serverDown, by decide, by decide⟩

/-- C10 (as amended): when the sitemap fetch fails, `fetchSites` returns its
error with the store untouched, and `fetchSitesStatuses` carries on: it
launches one probe per stored Site and, when those probes all hand back a
response, returns with the store replaced by the collected results, a
permutation of the `checkStatus` results of the Sites stored before; so as
many Sites as before, and none only if there were none. -/
theorem fetchSitesStatuses_fetch_failure_probes_stored (httpGet : String → GetResult)
    (probe : Nat → String → GetResult) (sched : List Nat) (s : SiteStore)
    (hfail : FetchFails httpGet)
    (hprobe : ∀ j (hj : j < s.sites.length), (probe j s.sites[j].URL).resp ≠ none) :
    (∃ err, s.fetchSites httpGet = .returned (some err, s)) ∧
      (spawn probe 0 s.sites).length = s.sites.length ∧
      ∃ s2, s.fetchSitesStatuses httpGet probe sched = .returned s2 ∧
        (s2.sites.map Outcome.returned).Perm (spawn probe 0 s.sites) ∧
        s2.sites.length = s.sites.length ∧
        (s2.sites = [] ↔ s.sites = []) := by
  obtain ⟨err, hfetch⟩ := fetchSites_of_fetchFails httpGet s hfail
  obtain ⟨s2, hrun, hperm, hurls⟩ := probeAll_of_responses probe sched s hprobe
  have heq := fetchSitesStatuses_of_fetchSites httpGet probe sched s s _ hfetch
  have hlen : s2.sites.length = s.sites.length := by simpa using hurls.length_eq
  refine ⟨⟨err, hfetch⟩, spawn_length probe 0 s.sites, s2, by rw [heq, hrun], hperm, hlen, ?_⟩
  rw [← List.length_eq_zero, ← List.length_eq_zero (l := s.sites), hlen]

theorem fetchSitesStatuses_fetch_failure_probes_stored_witness :
    FetchFails serverDown ∧
    (∃ err, twoSites.fetchSites serverDown = .returned (some err, twoSites)) ∧
      (spawn probeAllButB 0 twoSites.sites).length = twoSites.sites.length ∧
      ∃ s2, twoSites.fetchSitesStatuses serverDown probeAllButB [] = .returned s2 ∧
        (s2.sites.map Outcome.returned).Perm (spawn probeAllButB 0 twoSites.sites) ∧
        s2.sites.length = twoSites.sites.length ∧
        (s2.sites = [] ↔ twoSites.sites = []) :=
  ⟨fetchFails_serverDown,
    fetchSitesStatuses_fetch_failure_probes_stored serverDown probeAllButB [] twoSites
      fetchFails_serverDown (fun j _ => probeAllButB_responds j _)⟩

/-- C10 (counterexample): the sitemap server is down and the store holds two
Sites; the refresh launches two probes, not zero, and leaves two Sites in the
store, not the empty sequence. -/
theorem fetchSitesStatuses_fetch_failure_no_wipe :
    FetchFails serverDown ∧
    (spawn probeAllButB 0 twoSites.sites).length = 2 ∧
    twoSites.fetchSitesStatuses serverDown probeAllButB []
      = .returned ⟨[⟨"http://a.example", true⟩, ⟨"http://b.example", false⟩]⟩ ∧
    (⟨[⟨"http://a.example", true⟩, ⟨"http://b.example", false⟩]⟩ : SiteStore).sites ≠ [] :=
  ⟨fetchFails_serverDown, by decide, by decide, by decide⟩

/-- C9 (as amended): when the sitemap is fetched and unmarshals, `fetchSites`
returns a nil error and the stored sequence after it is the unmarshalled
Sites, whatever the store held. When the probes of those Sites all hand back
a response, `fetchSitesStatuses` then returns with the store written a second
time: it holds a permutation of the `checkStatus` results of the
unmarshalled Sites. -/
theorem fetchSites_success_stores (httpGet : String → GetResult)
    (probe : Nat → String → GetResult) (sched : List Nat) (s : SiteStore)
    (resp : Response) (urls : List Site)
    (hget : httpGet siteURL = ⟨some resp, none⟩)
    (hparse : xmlUnmarshal resp.Body = .ok urls)
    (hprobe : ∀ j (hj : j < urls.length), (probe j urls[j].URL).resp ≠ none) :
    s.fetchSites httpGet = .returned (none, ⟨urls⟩) ∧
      ∃ s2, s.fetchSitesStatuses httpGet probe sched = .returned s2 ∧
        (s2.sites.map Outcome.returned).Perm (spawn probe 0 urls) := by
  have hfetch := fetchSites_of_parse httpGet s resp urls hget hparse
  obtain ⟨s2, hrun, hperm, _⟩ := probeAll_of_responses probe sched ⟨urls⟩ hprobe
  exact ⟨hfetch, s2,
    by rw [fetchSitesStatuses_of_fetchSites httpGet probe sched s _ none hfetch, hrun], hperm⟩

theorem fetchSites_success_stores_witness :
    twoSites.fetchSites (sitemapServes (sitemapBody ["http://c.example"]))
        = .returned (none, ⟨[⟨"http://c.example", false⟩]⟩) ∧
      ∃ s2, twoSites.fetchSitesStatuses (sitemapServes (sitemapBody ["http://c.example"]))
          probeAllButB [] = .returned s2 ∧
        (s2.sites.map Outcome.returned).Perm
          (spawn probeAllButB 0 [⟨"http://c.example", false⟩]) :=
  fetchSites_success_stores _ probeAllButB [] twoSites
    ⟨200, sitemapBody ["http://c.example"]⟩ _ rfl rfl (fun j _ => probeAllButB_responds j _)

/-- C9 (counterexample): on an empty store and a sitemap with one entry,
`fetchSites` leaves one unprobed Site in the store: the stored sequence after
the call is not the one before it. -/
theorem fetchSites_modifies_store :
    NewSiteStore.fetchSites (sitemapServes (sitemapBody ["http://a.example"]))
      = .returned (none, ⟨[⟨"http://a.example", false⟩]⟩) ∧
    (⟨[⟨"http://a.example", false⟩]⟩ : SiteStore).sites ≠ NewSiteStore.sites :=
  ⟨by decide, by decide⟩

/-- C8 (as amended): in every store state reachable from `NewSiteStore()` by
runs of `fetchSites` and `fetchSitesStatuses` over sitemap bodies that
unmarshal without error and in which every url entry has a loc child, each
loc child with non-empty text, every stored Site has a non-empty URL. -/
theorem reachable_located_urlsNonEmpty (s : SiteStore)
    (h : Reachable (fun b => b.parses ∧ b.located = true) s) :
    ∀ site ∈ s.sites, site.URL ≠ "" :=
  reachable_urlsNonEmpty _ (fun _ hb => hb.2) s h

theorem reachable_threeProbed :
    Reachable (fun b => b.parses ∧ b.located = true) threeProbed :=
  Reachable.fetchSitesStatuses NewSiteStore _
    (sitemapServes (sitemapBody ["http://a.example", "http://b.example", "http://c.example"]))
    probeAllButB [2, 0] Reachable.init
    (fun resp hresp => by
      have hr : resp = ⟨200, sitemapBody
          ["http://a.example", "http://b.example", "http://c.example"]⟩ := by
        simpa [sitemapServes] using hresp.symm
      subst hr
      exact ⟨⟨_, rfl⟩, rfl⟩)
    (by decide)

theorem reachable_located_urlsNonEmpty_witness :
    Reachable (fun b => b.parses ∧ b.located = true) threeProbed ∧
      (⟨"http://b.example", false⟩ : Site) ∈ threeProbed.sites ∧
      (⟨"http://b.example", false⟩ : Site).URL ≠ "" :=
  ⟨reachable_threeProbed, by decide,
    reachable_located_urlsNonEmpty threeProbed reachable_threeProbed
      ⟨"http://b.example", false⟩ (by decide)⟩

/-- C8 (counterexample): the sitemap `<urlset><url></url></urlset>` unmarshals
without error, and `fetchSites` on it takes the new store to a store whose
one Site has the empty URL. -/
theorem reachable_empty_url :
    Reachable Body.parses ⟨[⟨"", false⟩]⟩ ∧
    ∃ site ∈ (⟨[⟨"", false⟩]⟩ : SiteStore).sites, site.URL = "" :=
  ⟨Reachable.fetchSites NewSiteStore _ (sitemapServes sitemapNoLoc) none Reachable.init
      (fun resp hresp => by
        have hr : resp = ⟨200, sitemapNoLoc⟩ := by
          simpa [sitemapServes] using hresp.symm
        subst hr
        exact ⟨_, rfl⟩)
      (by decide),
    ⟨"", false⟩, by simp, rfl⟩

end SiteStatus
